import Mathlib

/-!
Verification of the nbdkit plugin glue of s3backer (src/nbdkit.c).

The file shallowly embeds the request decomposition and dispatch engine:
the boundary decomposition of an arbitrary byte range into block-aligned
segments, and the read / write / trim dispatchers that issue backing-store
calls per segment, aborting on the first error.  Backing-store behaviour is
modelled by an error oracle (which result code each call returns) together
with a faithful store state (block index and byte offset to stored byte).
Side effects are made explicit: each dispatcher returns the ordered list of
backing-store calls it issued, the resulting store, and its outcome.
-/

namespace S3B

/-- Bytes are modelled as natural numbers. -/
abbrev Byte := Nat

/-- Contents of the backing store: block index and in-block byte offset to
the stored byte. -/
abbrev Store := Nat → Nat → Byte

/-- One call into the backing-store interface (struct s3backer_store):
read_block, read_block_part, write_block, write_block_part, bulk_zero.
For write calls, src is the byte view the C code passes as source pointer;
a call with a len field consumes the first len bytes of src, and
write_block consumes one block (the block size is a parameter of the
store semantics, see applyCall). -/
inductive BSCall where
  | read_block (block_num : Nat)
  | read_block_part (block_num off len : Nat)
  | write_block (block_num : Nat) (src : List Byte)
  | write_block_part (block_num off len : Nat) (src : List Byte)
  | bulk_zero (block_nums : List Nat)
deriving DecidableEq

/-- Effect of a successful backing-store call on a faithful store with
block size B: writes store exactly the bytes they are given, bulk_zero
zero-fills the named blocks, reads change nothing. -/
def applyCall (B : Nat) (σ : Store) : BSCall → Store
  | BSCall.write_block blk src =>
      fun b o => if b = blk ∧ o < B then src.getD o 0 else σ b o
  | BSCall.write_block_part blk off len src =>
      fun b o => if b = blk ∧ off ≤ o ∧ o < off + len then src.getD (o - off) 0 else σ b o
  | BSCall.bulk_zero blks =>
      fun b o => if b ∈ blks ∧ o < B then 0 else σ b o
  | _ => σ

/-- Bytes returned by a faithful full-block read of block blk. -/
def readFull (B : Nat) (σ : Store) (blk : Nat) : List Byte :=
  (List.range B).map (σ blk)

/-- Bytes returned by a faithful partial-block read of len bytes of block
blk starting at in-block offset off. -/
def readPart (σ : Store) (blk off len : Nat) : List Byte :=
  (List.range len).map (fun j => σ blk (off + j))

/-- Modelled from the spec: the statically-held all-zero block-sized buffer
(global zero_block, defined in util.c which is outside src/): one block of
zero bytes. -/
def zero_block (B : Nat) : List Byte :=
  List.replicate B 0

/-- The boundary decomposition of one request (struct boundary_info):
a leading partial-block segment, a run of whole blocks, and a trailing
partial-block segment.  Data pointers of the C struct are not stored here;
the dispatchers recover the corresponding views of the request buffer from
beg_length, mid_block_count and the block size. -/
structure boundary_info where
  beg_block : Nat
  beg_offset : Nat
  beg_length : Nat
  mid_block_start : Nat
  mid_block_count : Nat
  end_block : Nat
  end_length : Nat
deriving DecidableEq

/-- Modelled from the spec: calculate_boundary_info (defined in util.c,
which is outside src/), following spec section 4.1.  firstBlock is
offset / blockSize and offsetInBlock is offset % blockSize; when
offsetInBlock is nonzero the leading segment takes
min (length, blockSize - offsetInBlock) bytes and the block cursor starts
at firstBlock + 1, otherwise there is no leading segment and the cursor is
firstBlock; the whole-block run takes the next (rest / blockSize) blocks
and the trailing segment the remaining rest % blockSize bytes at in-block
offset 0. -/
def calculate_boundary_info (block_size size offset : Nat) : boundary_info :=
  let firstBlock := offset / block_size
  let offsetInBlock := offset % block_size
  if offsetInBlock ≠ 0 then
    let begLen := min size (block_size - offsetInBlock)
    let rest := size - begLen
    let midCount := rest / block_size
    { beg_block := firstBlock, beg_offset := offsetInBlock, beg_length := begLen,
      mid_block_start := firstBlock + 1, mid_block_count := midCount,
      end_block := firstBlock + 1 + midCount, end_length := rest % block_size }
  else
    let midCount := size / block_size
    { beg_block := firstBlock, beg_offset := 0, beg_length := 0,
      mid_block_start := firstBlock, mid_block_count := midCount,
      end_block := firstBlock + midCount, end_length := size % block_size }

/-! ## The read dispatcher (s3b_nbd_plugin_pread)

A dispatcher outcome is none for success (the C return value 0) or
some (blk, r) for the C path that logs the failing block number blk,
calls nbdkit_set_error r and returns -1. -/

/-- The while loop of s3b_nbd_plugin_pread: read each block of the
whole-block run in ascending index order (mid_block_count is decremented
and mid_block_start incremented per iteration; mid_data advances by one
block size, reflected here by concatenating full-block reads).  On a
nonzero result the loop aborts, surfacing the failing block index. -/
def pread_mid_loop (B : Nat) (err : BSCall → Int) (σ : Store) :
    Nat → Nat → List BSCall × List Byte × Option (Nat × Int)
  | 0, _ => ([], [], none)
  | n + 1, start =>
      let c := BSCall.read_block start
      if err c ≠ 0 then ([c], [], some (start, err c))
      else
        let r := pread_mid_loop B err σ n (start + 1)
        (c :: r.1, readFull B σ start ++ r.2.1, r.2.2)

/-- Leading-segment phase of s3b_nbd_plugin_pread: when beg_length > 0,
one partial-block read of the leading segment into beg_data. -/
def begReadPhase (err : BSCall → Int) (σ : Store) (info : boundary_info) :
    List BSCall × List Byte × Option (Nat × Int) :=
  if 0 < info.beg_length then
    let c := BSCall.read_block_part info.beg_block info.beg_offset info.beg_length
    if err c ≠ 0 then ([c], [], some (info.beg_block, err c))
    else ([c], readPart σ info.beg_block info.beg_offset info.beg_length, none)
  else ([], [], none)

/-- Trailing-segment phase of s3b_nbd_plugin_pread: when end_length > 0,
one partial-block read of end_length bytes of end_block at offset 0. -/
def endReadPhase (err : BSCall → Int) (σ : Store) (info : boundary_info) :
    List BSCall × List Byte × Option (Nat × Int) :=
  if 0 < info.end_length then
    let c := BSCall.read_block_part info.end_block 0 info.end_length
    if err c ≠ 0 then ([c], [], some (info.end_block, err c))
    else ([c], readPart σ info.end_block 0 info.end_length, none)
  else ([], [], none)

/-- s3b_nbd_plugin_pread (src/nbdkit.c lines 345-378): decompose the
request, then read the leading segment, the whole-block run and the
trailing segment in that order, returning on the first nonzero result.
The flags argument is ignored, as in the C code.  Returns the issued
calls in order, the bytes assembled into the request buffer, and the
outcome. -/
def s3b_nbd_plugin_pread (B : Nat) (err : BSCall → Int) (σ : Store)
    (size offset flags : Nat) : List BSCall × List Byte × Option (Nat × Int) :=
  let info := calculate_boundary_info B size offset
  match begReadPhase err σ info with
  | (t1, d1, some e) => (t1, d1, some e)
  | (t1, d1, none) =>
      match pread_mid_loop B err σ info.mid_block_count info.mid_block_start with
      | (t2, d2, some e) => (t1 ++ t2, d1 ++ d2, some e)
      | (t2, d2, none) =>
          let e3 := endReadPhase err σ info
          (t1 ++ t2 ++ e3.1, d1 ++ d2 ++ e3.2.1, e3.2.2)

/-! ## The write dispatcher (s3b_nbd_plugin_pwrite) -/

/-- The while loop of s3b_nbd_plugin_pwrite: write each block of the
whole-block run in ascending index order; data is the view the C pointer
mid_data designates, advanced by one block size per iteration.  On a
nonzero result the loop aborts, surfacing the failing block index; a
failing write leaves the store unchanged. -/
def pwrite_mid_loop (B : Nat) (err : BSCall → Int) :
    Nat → Nat → List Byte → Store → List BSCall × Store × Option (Nat × Int)
  | 0, _, _, σ => ([], σ, none)
  | n + 1, start, data, σ =>
      let c := BSCall.write_block start data
      if err c ≠ 0 then ([c], σ, some (start, err c))
      else
        let r := pwrite_mid_loop B err n (start + 1) (data.drop B) (applyCall B σ c)
        (c :: r.1, r.2.1, r.2.2)

/-- Leading-segment phase of s3b_nbd_plugin_pwrite: when beg_length > 0,
one partial-block write of the first beg_length bytes of the request
buffer at in-block offset beg_offset. -/
def begWritePhase (B : Nat) (err : BSCall → Int) (σ : Store) (info : boundary_info)
    (buf : List Byte) : List BSCall × Store × Option (Nat × Int) :=
  if 0 < info.beg_length then
    let c := BSCall.write_block_part info.beg_block info.beg_offset info.beg_length buf
    if err c ≠ 0 then ([c], σ, some (info.beg_block, err c))
    else ([c], applyCall B σ c, none)
  else ([], σ, none)

/-- Trailing-segment phase of s3b_nbd_plugin_pwrite: when end_length > 0,
one partial-block write of end_length bytes at in-block offset 0, sourced
from the view data of the request buffer (the C pointer end_data). -/
def endWritePhase (B : Nat) (err : BSCall → Int) (σ : Store) (info : boundary_info)
    (data : List Byte) : List BSCall × Store × Option (Nat × Int) :=
  if 0 < info.end_length then
    let c := BSCall.write_block_part info.end_block 0 info.end_length data
    if err c ≠ 0 then ([c], σ, some (info.end_block, err c))
    else ([c], applyCall B σ c, none)
  else ([], σ, none)

/-- s3b_nbd_plugin_pwrite (src/nbdkit.c lines 380-413): decompose the
request, then write the leading segment, the whole-block run and the
trailing segment in that order, returning on the first nonzero result.
The flags argument is ignored, as in the C code. -/
def s3b_nbd_plugin_pwrite (B : Nat) (err : BSCall → Int) (σ : Store) (buf : List Byte)
    (size offset flags : Nat) : List BSCall × Store × Option (Nat × Int) :=
  let info := calculate_boundary_info B size offset
  match begWritePhase B err σ info buf with
  | (t1, σ1, some e) => (t1, σ1, some e)
  | (t1, σ1, none) =>
      match pwrite_mid_loop B err info.mid_block_count info.mid_block_start
          (buf.drop info.beg_length) σ1 with
      | (t2, σ2, some e) => (t1 ++ t2, σ2, some e)
      | (t2, σ2, none) =>
          let e3 := endWritePhase B err σ2 info
            (buf.drop (info.beg_length + info.mid_block_count * B))
          (t1 ++ t2 ++ e3.1, e3.2.1, e3.2.2)

/-! ## The trim / zero dispatcher (s3b_nbd_plugin_trim) -/

/-- Result of one trim dispatch: the issued calls in order, how many
transient block-index arrays were malloc-ed and how many were freed, the
resulting store, and the outcome (trim reports no failing block index for
a failed bulk_zero). -/
structure TrimOut where
  trace : List BSCall
  allocated : Nat
  freed : Nat
  store : Store
  res : Option Int

/-- Trailing phase of s3b_nbd_plugin_trim: when end_length > 0, one
partial-block write of end_length bytes at in-block offset 0 sourced from
the zero block; t, a and f accumulate the calls, allocations and frees of
the earlier phases. -/
def trim_end_phase (B : Nat) (err : BSCall → Int) (σ : Store) (info : boundary_info)
    (t : List BSCall) (a f : Nat) : TrimOut :=
  let c := BSCall.write_block_part info.end_block 0 info.end_length (zero_block B)
  if 0 < info.end_length then
    if err c ≠ 0 then ⟨t ++ [c], a, f, σ, some (err c)⟩
    else ⟨t ++ [c], a, f, applyCall B σ c, none⟩
  else ⟨t, a, f, σ, none⟩

/-- s3b_nbd_plugin_trim (src/nbdkit.c lines 415-458): decompose the
request (with no source buffer), zero the leading segment with a partial
write from zero_block, malloc a transient array block_nums holding the
block indices mid_block_start + i for i < mid_block_count and issue one
bulk_zero call with it, then zero the trailing segment.  The first
nonzero result aborts the dispatch.  As in the C code, the array is freed
after a successful bulk_zero but not on the path where bulk_zero returns
a nonzero result (the malloc itself is modelled as always succeeding).
The flags argument is ignored, as in the C code. -/
def s3b_nbd_plugin_trim (B : Nat) (err : BSCall → Int) (σ : Store)
    (size offset flags : Nat) : TrimOut :=
  let info := calculate_boundary_info B size offset
  let cbeg := BSCall.write_block_part info.beg_block info.beg_offset info.beg_length (zero_block B)
  if 0 < info.beg_length ∧ err cbeg ≠ 0 then
    ⟨[cbeg], 0, 0, σ, some (err cbeg)⟩
  else
    let t1 := if 0 < info.beg_length then [cbeg] else []
    let σ1 := if 0 < info.beg_length then applyCall B σ cbeg else σ
    if 0 < info.mid_block_count then
      let block_nums := (List.range info.mid_block_count).map
        (fun i => info.mid_block_start + i)
      let cmid := BSCall.bulk_zero block_nums
      if err cmid ≠ 0 then
        ⟨t1 ++ [cmid], 1, 0, σ1, some (err cmid)⟩
      else
        trim_end_phase B err (applyCall B σ1 cmid) info (t1 ++ [cmid]) 1 1
    else
      trim_end_phase B err σ1 info t1 0 0

/-! ## Capability callbacks and the plugin table -/

/-- NBDKIT_CACHE_NONE of nbdkit-plugin.h. -/
def NBDKIT_CACHE_NONE : Int := 0

/-- NBDKIT_CACHE_EMULATE of nbdkit-plugin.h. -/
def NBDKIT_CACHE_EMULATE : Int := 1

/-- The block-cache part of struct s3b_config that the plugin consults. -/
structure block_cache_conf where
  cache_size : Nat
deriving DecidableEq

/-- The part of struct s3b_config the connection callbacks read. -/
structure s3b_config_core where
  block_size : Nat
  block_cache : block_cache_conf
deriving DecidableEq

/-- s3b_nbd_plugin_can_cache (src/nbdkit.c lines 460-465): cache pre-load
is advertised (NBDKIT_CACHE_EMULATE) exactly when the configured block
cache capacity is positive, else NBDKIT_CACHE_NONE. -/
def s3b_nbd_plugin_can_cache (config : s3b_config_core) : Int :=
  if 0 < config.block_cache.cache_size then NBDKIT_CACHE_EMULATE else NBDKIT_CACHE_NONE

/-- s3b_nbd_plugin_can_multi_conn (src/nbdkit.c lines 467-472). -/
def s3b_nbd_plugin_can_multi_conn : Int := 1

/-- The connection-callback slots of the static struct nbdkit_plugin
declaration (src/nbdkit.c lines 97-142). -/
structure nbdkit_plugin_callbacks where
  pread : Nat → (BSCall → Int) → Store → Nat → Nat → Nat →
    List BSCall × List Byte × Option (Nat × Int)
  pwrite : Nat → (BSCall → Int) → Store → List Byte → Nat → Nat → Nat →
    List BSCall × Store × Option (Nat × Int)
  trim : Nat → (BSCall → Int) → Store → Nat → Nat → Nat → TrimOut
  zero : Nat → (BSCall → Int) → Store → Nat → Nat → Nat → TrimOut
  can_multi_conn : Int
  can_cache : s3b_config_core → Int

/-- The plugin table: as in the C declaration, the zero slot is filled
with the trim handler ("for us, trim and zero are the same thing"). -/
def plugin : nbdkit_plugin_callbacks where
  pread := s3b_nbd_plugin_pread
  pwrite := s3b_nbd_plugin_pwrite
  trim := s3b_nbd_plugin_trim
  zero := s3b_nbd_plugin_trim
  can_multi_conn := s3b_nbd_plugin_can_multi_conn
  can_cache := s3b_nbd_plugin_can_cache

/-! ## Spec-level sequential dispatch

The spec describes each dispatcher as processing an ordered list of
segments, one backing-store call per segment, aborting on the first
nonzero result and surfacing the failing block index.  readSegs and
writeSegs build that ordered list from a boundary_info, and runReadSeq /
runWriteSeq are the generic abort-on-first-error processors the claim
theorems compare the dispatchers against. -/

/-- The ordered whole-block-run read segments: blocks start, start+1, ...
for n blocks, each tagged with the block index reported on failure. -/
def midReadSegs : Nat → Nat → List (Nat × BSCall)
  | 0, _ => []
  | n + 1, start => (start, BSCall.read_block start) :: midReadSegs n (start + 1)

/-- The leading read segment, present when beg_length > 0. -/
def begReadSegs (info : boundary_info) : List (Nat × BSCall) :=
  if 0 < info.beg_length then
    [(info.beg_block, BSCall.read_block_part info.beg_block info.beg_offset info.beg_length)]
  else []

/-- The trailing read segment, present when end_length > 0. -/
def endReadSegs (info : boundary_info) : List (Nat × BSCall) :=
  if 0 < info.end_length then
    [(info.end_block, BSCall.read_block_part info.end_block 0 info.end_length)]
  else []

/-- The full ordered read-segment list of one request: leading partial
block, then the whole-block run in ascending index order, then the
trailing partial block. -/
def readSegs (info : boundary_info) : List (Nat × BSCall) :=
  begReadSegs info ++ (midReadSegs info.mid_block_count info.mid_block_start ++ endReadSegs info)

/-- Bytes a successful read call returns from a faithful store. -/
def readData (B : Nat) (σ : Store) : BSCall → List Byte
  | BSCall.read_block blk => readFull B σ blk
  | BSCall.read_block_part blk off len => readPart σ blk off len
  | _ => []

/-- Generic sequential read processing: issue each segment's call in
order; the first nonzero result aborts immediately with that segment's
block index and the underlying code; a successful call contributes its
bytes to the output. -/
def runReadSeq (B : Nat) (err : BSCall → Int) (σ : Store) :
    List (Nat × BSCall) → List BSCall × List Byte × Option (Nat × Int)
  | [] => ([], [], none)
  | s :: rest =>
      if err s.2 ≠ 0 then ([s.2], [], some (s.1, err s.2))
      else
        let r := runReadSeq B err σ rest
        (s.2 :: r.1, readData B σ s.2 ++ r.2.1, r.2.2)

/-- The ordered whole-block-run write segments: block start gets the
current view data of the request buffer, which advances by one block
size per block. -/
def midWriteSegs (B : Nat) : Nat → Nat → List Byte → List (Nat × BSCall)
  | 0, _, _ => []
  | n + 1, start, data =>
      (start, BSCall.write_block start data) :: midWriteSegs B n (start + 1) (data.drop B)

/-- The leading write segment, present when beg_length > 0. -/
def begWriteSegs (info : boundary_info) (buf : List Byte) : List (Nat × BSCall) :=
  if 0 < info.beg_length then
    [(info.beg_block, BSCall.write_block_part info.beg_block info.beg_offset info.beg_length buf)]
  else []

/-- The trailing write segment, present when end_length > 0; data is the
trailing view of the request buffer. -/
def endWriteSegs (info : boundary_info) (data : List Byte) : List (Nat × BSCall) :=
  if 0 < info.end_length then
    [(info.end_block, BSCall.write_block_part info.end_block 0 info.end_length data)]
  else []

/-- The full ordered write-segment list of one request. -/
def writeSegs (B : Nat) (info : boundary_info) (buf : List Byte) : List (Nat × BSCall) :=
  begWriteSegs info buf ++
    (midWriteSegs B info.mid_block_count info.mid_block_start (buf.drop info.beg_length) ++
      endWriteSegs info (buf.drop (info.beg_length + info.mid_block_count * B)))

/-- The write-segment list of the request (size, offset): the segments of
its boundary decomposition. -/
def pwriteSegs (B size offset : Nat) (buf : List Byte) : List (Nat × BSCall) :=
  writeSegs B (calculate_boundary_info B size offset) buf

/-- Generic sequential write processing: issue each segment's call in
order on the evolving store; the first nonzero result aborts immediately
with that segment's block index and the underlying code; a successful
call is applied to the store. -/
def runWriteSeq (B : Nat) (err : BSCall → Int) :
    List (Nat × BSCall) → Store → List BSCall × Store × Option (Nat × Int)
  | [], σ => ([], σ, none)
  | s :: rest, σ =>
      if err s.2 ≠ 0 then ([s.2], σ, some (s.1, err s.2))
      else
        let r := runWriteSeq B err rest (applyCall B σ s.2)
        (s.2 :: r.1, r.2.1, r.2.2)

/-! ## Further auxiliary definitions -/

/-- Default segment used with List.getD. -/
def dummySeg : Nat × BSCall := (0, BSCall.bulk_zero [])

/-- The always-succeeding error oracle. -/
def err0 : BSCall → Int := fun _ => 0

/-- The all-zero store. -/
def σ0 : Store := fun _ _ => 0

/-- Store after the error-free whole-block-run writes: block start + i
receives the i-th block-sized slice of data. -/
def midStoreW (B : Nat) : Nat → Nat → List Byte → Store → Store
  | 0, _, _, σ => σ
  | n + 1, start, data, σ =>
      midStoreW B n (start + 1) (data.drop B) (applyCall B σ (BSCall.write_block start data))

/-- Calls of the error-free whole-block-run writes. -/
def midTraceW (B : Nat) : Nat → Nat → List Byte → List BSCall
  | 0, _, _ => []
  | n + 1, start, data => BSCall.write_block start data :: midTraceW B n (start + 1) (data.drop B)

/-- Bytes of the error-free whole-block-run reads. -/
def midReadW (B : Nat) (σ : Store) : Nat → Nat → List Byte
  | 0, _ => []
  | n + 1, start => readFull B σ start ++ midReadW B σ n (start + 1)

/-- Store state after one complete error-free write dispatch: leading
partial write, then the whole-block run, then the trailing partial
write. -/
def writtenStore (B : Nat) (σ : Store) (buf : List Byte) (info : boundary_info) : Store :=
  let σ1 := if 0 < info.beg_length then
      applyCall B σ (BSCall.write_block_part info.beg_block info.beg_offset info.beg_length buf)
    else σ
  let σ2 := midStoreW B info.mid_block_count info.mid_block_start (buf.drop info.beg_length) σ1
  if 0 < info.end_length then
    applyCall B σ2 (BSCall.write_block_part info.end_block 0 info.end_length
      (buf.drop (info.beg_length + info.mid_block_count * B)))
  else σ2

/-- Bytes assembled by one complete error-free read dispatch. -/
def readOut (B : Nat) (σ : Store) (info : boundary_info) : List Byte :=
  (if 0 < info.beg_length then
      readPart σ info.beg_block info.beg_offset info.beg_length else []) ++
    (midReadW B σ info.mid_block_count info.mid_block_start ++
      (if 0 < info.end_length then readPart σ info.end_block 0 info.end_length else []))

/-- Recognizer for batched zero-fill calls. -/
def isBulkZero : BSCall → Bool
  | BSCall.bulk_zero _ => true
  | _ => false

/-- An error oracle that fails every bulk_zero call with code 5 and
succeeds on every other call. -/
def errBulkFail : BSCall → Int
  | BSCall.bulk_zero _ => 5
  | _ => 0

/-- An error oracle that fails every full-block write of block 1 with
code 7 and succeeds on every other call. -/
def errBlockOneFail : BSCall → Int
  | BSCall.write_block 1 _ => 7
  | _ => 0

/-! ## The configuration callback (s3b_nbd_plugin_config)

C strings are modelled as lists of characters so that the handler is
fully executable.  The handler is parameterized by is_valid_s3b_flag
(defined outside src/): 1 for a boolean s3backer flag, 2 for a value
flag, anything else for unknown.  Its state is the accumulated argument
array params and the saved bucket parameter; it returns the new state
together with the C return value (0 for success, -1 for error). -/

/-- C strings as character lists. -/
abbrev CStr := List Char

/-- PACKAGE_NAME: the program name used to initialize the argument
array. -/
def PACKAGE_NAME : CStr := "s3backer".toList

/-- BUCKET_PARAMETER_NAME (src/nbdkit.c line 52). -/
def BUCKET_PARAMETER_NAME : CStr := "bucket".toList

/-- S3B_PARAM_PREFIX (src/nbdkit.c line 53), named without the last two
words of the C macro. -/
def s3bParamPfx : CStr := "s3b_".toList

/-- The mutable configuration state of the plugin (the params string
array and the saved bucket parameter). -/
structure ConfigState where
  params : List CStr
  bucket_param : Option CStr
deriving DecidableEq

/-- s3b_nbd_plugin_config (src/nbdkit.c lines 146-208).  The params
array is initialized with the package name on first use; a key longer
than the four-character distinguishing prefix that starts with it is
stripped (and remembered as had_s3b_prefix in the C code); the special
bucket key is saved (duplicate is an error); otherwise the key is looked
up as an s3backer flag and converted to a command-line argument; an
unknown key is an error exactly when the prefix had been stripped, and
is silently ignored otherwise.  String allocation failures of the C code
are not modelled. -/
def s3b_nbd_plugin_config (is_valid_s3b_flag : CStr → Nat) (st : ConfigState)
    (key value : CStr) : ConfigState × Int :=
  let params0 := if st.params = [] then [PACKAGE_NAME] else st.params
  let had_s3b_pfx : Bool := decide (4 < key.length) && decide (key.take 4 = s3bParamPfx)
  let key1 := if had_s3b_pfx then key.drop 4 else key
  if key1 = BUCKET_PARAMETER_NAME then
    match st.bucket_param with
    | some _ => (⟨params0, st.bucket_param⟩, -1)
    | none => (⟨params0, some value⟩, 0)
  else
    match is_valid_s3b_flag key1 with
    | 1 =>
        if value.map Char.toLower = "true".toList then
          (⟨params0 ++ ["--".toList ++ key1], st.bucket_param⟩, 0)
        else if value.map Char.toLower = "false".toList then
          (⟨params0, st.bucket_param⟩, 0)
        else (⟨params0, st.bucket_param⟩, -1)
    | 2 => (⟨params0 ++ ["--".toList ++ key1 ++ "=".toList ++ value], st.bucket_param⟩, 0)
    | _ => if had_s3b_pfx then (⟨params0, st.bucket_param⟩, -1)
        else (⟨params0, st.bucket_param⟩, 0)

/-! ## Sequential processing lemmas -/

theorem runReadSeq_append (B : Nat) (err : BSCall → Int) (σ : Store)
    (xs ys : List (Nat × BSCall)) :
    runReadSeq B err σ (xs ++ ys) =
      match runReadSeq B err σ xs with
      | (t, d, some e) => (t, d, some e)
      | (t, d, none) =>
          (t ++ (runReadSeq B err σ ys).1, d ++ (runReadSeq B err σ ys).2.1,
            (runReadSeq B err σ ys).2.2)
  := by
  induction xs with
  | nil => simp [runReadSeq]
  | cons s xs ih =>
      by_cases h : err s.2 ≠ 0
      · simp [runReadSeq, h]
      · rcases hx : runReadSeq B err σ xs with ⟨t, d, r⟩
        cases r with
        | some e => simp [runReadSeq, if_neg h, ih, hx]
        | none => simp [runReadSeq, if_neg h, ih, hx, List.append_assoc]

theorem runWriteSeq_append (B : Nat) (err : BSCall → Int)
    (xs ys : List (Nat × BSCall)) (σ : Store) :
    runWriteSeq B err (xs ++ ys) σ =
      match runWriteSeq B err xs σ with
      | (t, τ, some e) => (t, τ, some e)
      | (t, τ, none) =>
          (t ++ (runWriteSeq B err ys τ).1, (runWriteSeq B err ys τ).2.1,
            (runWriteSeq B err ys τ).2.2)
  := by
  induction xs generalizing σ with
  | nil => simp [runWriteSeq]
  | cons s xs ih =>
      by_cases h : err s.2 ≠ 0
      · simp [runWriteSeq, h]
      · rcases hx : runWriteSeq B err xs (applyCall B σ s.2) with ⟨t, τ, r⟩
        cases r with
        | some e => simp [runWriteSeq, if_neg h, ih, hx]
        | none => simp [runWriteSeq, if_neg h, ih, hx]

theorem begReadPhase_eq_run (B : Nat) (err : BSCall → Int) (σ : Store)
    (info : boundary_info) :
    begReadPhase err σ info = runReadSeq B err σ (begReadSegs info) := by
  by_cases h : 0 < info.beg_length
  · by_cases he : err (BSCall.read_block_part info.beg_block info.beg_offset info.beg_length) ≠ 0 <;>
      simp [begReadPhase, begReadSegs, runReadSeq, readData, h, he]
  · simp [begReadPhase, begReadSegs, runReadSeq, h]

theorem endReadPhase_eq_run (B : Nat) (err : BSCall → Int) (σ : Store)
    (info : boundary_info) :
    endReadPhase err σ info = runReadSeq B err σ (endReadSegs info) := by
  by_cases h : 0 < info.end_length
  · by_cases he : err (BSCall.read_block_part info.end_block 0 info.end_length) ≠ 0 <;>
      simp [endReadPhase, endReadSegs, runReadSeq, readData, h, he]
  · simp [endReadPhase, endReadSegs, runReadSeq, h]

theorem pread_mid_loop_eq_run (B : Nat) (err : BSCall → Int) (σ : Store) :
    ∀ (n start : Nat),
      pread_mid_loop B err σ n start = runReadSeq B err σ (midReadSegs n start) := by
  intro n
  induction n with
  | zero => intro start; simp [pread_mid_loop, midReadSegs, runReadSeq]
  | succ n ih =>
      intro start
      by_cases h : err (BSCall.read_block start) ≠ 0 <;>
        simp [pread_mid_loop, midReadSegs, runReadSeq, readData, h, ih]

theorem begWritePhase_eq_run (B : Nat) (err : BSCall → Int) (σ : Store)
    (info : boundary_info) (buf : List Byte) :
    begWritePhase B err σ info buf = runWriteSeq B err (begWriteSegs info buf) σ := by
  by_cases h : 0 < info.beg_length
  · by_cases he : err (BSCall.write_block_part info.beg_block info.beg_offset info.beg_length buf) ≠ 0 <;>
      simp [begWritePhase, begWriteSegs, runWriteSeq, h, he]
  · simp [begWritePhase, begWriteSegs, runWriteSeq, h]

theorem endWritePhase_eq_run (B : Nat) (err : BSCall → Int) (σ : Store)
    (info : boundary_info) (data : List Byte) :
    endWritePhase B err σ info data = runWriteSeq B err (endWriteSegs info data) σ := by
  by_cases h : 0 < info.end_length
  · by_cases he : err (BSCall.write_block_part info.end_block 0 info.end_length data) ≠ 0 <;>
      simp [endWritePhase, endWriteSegs, runWriteSeq, h, he]
  · simp [endWritePhase, endWriteSegs, runWriteSeq, h]

theorem pwrite_mid_loop_eq_run (B : Nat) (err : BSCall → Int) :
    ∀ (n start : Nat) (data : List Byte) (σ : Store),
      pwrite_mid_loop B err n start data σ =
        runWriteSeq B err (midWriteSegs B n start data) σ := by
  intro n
  induction n with
  | zero => intro start data σ; simp [pwrite_mid_loop, midWriteSegs, runWriteSeq]
  | succ n ih =>
      intro start data σ
      by_cases h : err (BSCall.write_block start data) ≠ 0 <;>
        simp [pwrite_mid_loop, midWriteSegs, runWriteSeq, h, ih]

/-- The read dispatcher is the sequential processing of its ordered
segment list (shared helper behind the claim theorems). -/
theorem pread_eq_runReadSeq (B : Nat) (err : BSCall → Int) (σ : Store)
    (size offset flags : Nat) :
    s3b_nbd_plugin_pread B err σ size offset flags =
      runReadSeq B err σ (readSegs (calculate_boundary_info B size offset)) := by
  unfold s3b_nbd_plugin_pread readSegs
  rw [runReadSeq_append, runReadSeq_append,
    ← begReadPhase_eq_run B, ← endReadPhase_eq_run B, ← pread_mid_loop_eq_run]
  rcases hb : begReadPhase err σ (calculate_boundary_info B size offset) with ⟨t1, d1, r1⟩
  cases r1 with
  | some e => simp [hb]
  | none =>
      rcases hm : pread_mid_loop B err σ (calculate_boundary_info B size offset).mid_block_count
          (calculate_boundary_info B size offset).mid_block_start with ⟨t2, d2, r2⟩
      cases r2 <;> simp [hb, hm]

/-- The write dispatcher is the sequential processing of its ordered
segment list (shared helper behind the claim theorems). -/
theorem pwrite_eq_runWriteSeq (B : Nat) (err : BSCall → Int) (σ : Store) (buf : List Byte)
    (size offset flags : Nat) :
    s3b_nbd_plugin_pwrite B err σ buf size offset flags =
      runWriteSeq B err (pwriteSegs B size offset buf) σ := by
  unfold s3b_nbd_plugin_pwrite pwriteSegs writeSegs
  rw [runWriteSeq_append, ← begWritePhase_eq_run]
  rcases hb : begWritePhase B err σ (calculate_boundary_info B size offset) buf with ⟨t1, σ1, r1⟩
  cases r1 with
  | some e => simp [hb]
  | none =>
      simp only [hb]
      rw [runWriteSeq_append, ← pwrite_mid_loop_eq_run]
      rcases hm : pwrite_mid_loop B err (calculate_boundary_info B size offset).mid_block_count
          (calculate_boundary_info B size offset).mid_block_start
          (buf.drop (calculate_boundary_info B size offset).beg_length) σ1 with ⟨t2, σ2, r2⟩
      cases r2 with
      | some e => simp [hm]
      | none =>
          simp only [hm]
          rw [← endWritePhase_eq_run]
          simp [hm, List.append_assoc]

/-! ## Boundary decomposition arithmetic -/

/-- The three segment lengths of a decomposition always add up to the
request length (shared helper behind the claim theorems). -/
theorem boundary_sum (B size offset : Nat) :
    (calculate_boundary_info B size offset).beg_length +
      (calculate_boundary_info B size offset).mid_block_count * B +
      (calculate_boundary_info B size offset).end_length = size := by
  unfold calculate_boundary_info
  by_cases h : offset % B ≠ 0
  · rw [if_pos h]
    dsimp only
    have h2 : min size (B - offset % B) ≤ size := Nat.min_le_left _ _
    rw [Nat.add_assoc, Nat.div_add_mod', Nat.add_sub_cancel' h2]
  · rw [if_neg h]
    dsimp only
    rw [Nat.zero_add, Nat.div_add_mod']

theorem bi_end_eq (B size offset : Nat) :
    (calculate_boundary_info B size offset).end_block =
      (calculate_boundary_info B size offset).mid_block_start +
        (calculate_boundary_info B size offset).mid_block_count := by
  unfold calculate_boundary_info
  by_cases h : offset % B ≠ 0 <;> simp [h]

theorem bi_beg_lt_mid (B size offset : Nat)
    (h : 0 < (calculate_boundary_info B size offset).beg_length) :
    (calculate_boundary_info B size offset).beg_block <
      (calculate_boundary_info B size offset).mid_block_start := by
  unfold calculate_boundary_info at h ⊢
  by_cases ha : offset % B ≠ 0
  · simp [ha]
  · simp [ha] at h

theorem bi_beg_le_B (B size offset : Nat) :
    (calculate_boundary_info B size offset).beg_length ≤ B := by
  unfold calculate_boundary_info
  by_cases h : offset % B ≠ 0
  · rw [if_pos h]
    exact le_trans (Nat.min_le_right _ _) (Nat.sub_le _ _)
  · rw [if_neg h]
    exact Nat.zero_le _

/-! ## First-error characterization of sequential writes -/

/-- If the call of segment k is the first to fail, sequential processing
issues exactly the calls of segments 0..k, leaves the store with exactly
the segments before k applied, and returns segment k's block index and
error code (shared helper behind the claim theorems). -/
theorem runWriteSeq_firstFail (B : Nat) (err : BSCall → Int) :
    ∀ (k : Nat) (segs : List (Nat × BSCall)) (σ : Store),
      k < segs.length →
      err (segs.getD k dummySeg).2 ≠ 0 →
      (∀ j, j < k → err (segs.getD j dummySeg).2 = 0) →
      runWriteSeq B err segs σ =
        ((segs.take (k + 1)).map Prod.snd,
          List.foldl (fun τ s => applyCall B τ s.2) σ (segs.take k),
          some ((segs.getD k dummySeg).1, err (segs.getD k dummySeg).2)) := by
  intro k
  induction k with
  | zero =>
      intro segs σ hk hf hp
      match segs with
      | [] => simp at hk
      | s :: rest =>
          simp only [List.getD_cons_zero] at hf ⊢
          simp [runWriteSeq, hf]
  | succ k ih =>
      intro segs σ hk hf hp
      match segs with
      | [] => simp at hk
      | s :: rest =>
          have h0 : err s.2 = 0 := by
            have := hp 0 (Nat.succ_pos k)
            simpa using this
          simp only [List.getD_cons_succ] at hf ⊢
          have hk2 : k < rest.length := by simpa using hk
          have hp2 : ∀ j, j < k → err (rest.getD j dummySeg).2 = 0 := by
            intro j hj
            have := hp (j + 1) (Nat.succ_lt_succ hj)
            simpa using this
          have hrec := ih rest (applyCall B σ s.2) hk2 hf hp2
          simp [runWriteSeq, h0, hrec, List.take_succ_cons]

/-! ## Error-free executions

The lemmas here compute each dispatcher's result under the
always-succeeding oracle err0 in closed form, for the round-trip
claim. -/

theorem begWritePhase_err0 (B : Nat) (σ : Store) (info : boundary_info) (buf : List Byte) :
    begWritePhase B err0 σ info buf =
      ((if 0 < info.beg_length then
          [BSCall.write_block_part info.beg_block info.beg_offset info.beg_length buf] else []),
        (if 0 < info.beg_length then
          applyCall B σ (BSCall.write_block_part info.beg_block info.beg_offset info.beg_length buf)
        else σ), none) := by
  by_cases h : 0 < info.beg_length <;> simp [begWritePhase, err0, h]

theorem endWritePhase_err0 (B : Nat) (σ : Store) (info : boundary_info) (data : List Byte) :
    endWritePhase B err0 σ info data =
      ((if 0 < info.end_length then
          [BSCall.write_block_part info.end_block 0 info.end_length data] else []),
        (if 0 < info.end_length then
          applyCall B σ (BSCall.write_block_part info.end_block 0 info.end_length data)
        else σ), none) := by
  by_cases h : 0 < info.end_length <;> simp [endWritePhase, err0, h]

theorem pwrite_mid_loop_err0 (B : Nat) :
    ∀ (n start : Nat) (data : List Byte) (σ : Store),
      pwrite_mid_loop B err0 n start data σ =
        (midTraceW B n start data, midStoreW B n start data σ, none) := by
  intro n
  induction n with
  | zero => intro start data σ; simp [pwrite_mid_loop, midTraceW, midStoreW]
  | succ n ih => intro start data σ; simp [pwrite_mid_loop, midTraceW, midStoreW, err0, ih]

theorem begReadPhase_err0 (σ : Store) (info : boundary_info) :
    begReadPhase err0 σ info =
      ((if 0 < info.beg_length then
          [BSCall.read_block_part info.beg_block info.beg_offset info.beg_length] else []),
        (if 0 < info.beg_length then
          readPart σ info.beg_block info.beg_offset info.beg_length else []), none) := by
  by_cases h : 0 < info.beg_length <;> simp [begReadPhase, err0, h]

theorem endReadPhase_err0 (σ : Store) (info : boundary_info) :
    endReadPhase err0 σ info =
      ((if 0 < info.end_length then
          [BSCall.read_block_part info.end_block 0 info.end_length] else []),
        (if 0 < info.end_length then
          readPart σ info.end_block 0 info.end_length else []), none) := by
  by_cases h : 0 < info.end_length <;> simp [endReadPhase, err0, h]

theorem pread_mid_loop_err0 (B : Nat) (σ : Store) :
    ∀ (n start : Nat),
      pread_mid_loop B err0 σ n start =
        ((midReadSegs n start).map Prod.snd, midReadW B σ n start, none) := by
  intro n
  induction n with
  | zero => intro start; simp [pread_mid_loop, midReadSegs, midReadW]
  | succ n ih => intro start; simp [pread_mid_loop, midReadSegs, midReadW, err0, ih]

theorem pwrite_err0_store (B : Nat) (σ : Store) (buf : List Byte) (size offset flags : Nat) :
    (s3b_nbd_plugin_pwrite B err0 σ buf size offset flags).2.1 =
      writtenStore B σ buf (calculate_boundary_info B size offset) := by
  unfold s3b_nbd_plugin_pwrite writtenStore
  simp only [begWritePhase_err0, pwrite_mid_loop_err0, endWritePhase_err0]

theorem pread_err0_out (B : Nat) (σ : Store) (size offset flags : Nat) :
    (s3b_nbd_plugin_pread B err0 σ size offset flags).2.1 =
      readOut B σ (calculate_boundary_info B size offset) := by
  unfold s3b_nbd_plugin_pread readOut
  simp only [begReadPhase_err0, pread_mid_loop_err0, endReadPhase_err0]
  rw [List.append_assoc]

/-! ## Pointwise store lemmas -/

theorem midStoreW_out (B : Nat) :
    ∀ (n start : Nat) (data : List Byte) (σ : Store) (b o : Nat),
      (b < start ∨ start + n ≤ b) → midStoreW B n start data σ b o = σ b o := by
  intro n
  induction n with
  | zero => intro start data σ b o h; rfl
  | succ n ih =>
      intro start data σ b o h
      show midStoreW B n (start + 1) (data.drop B)
        (applyCall B σ (BSCall.write_block start data)) b o = σ b o
      rw [ih (start + 1) (data.drop B) _ b o (by omega)]
      show (fun b o => if b = start ∧ o < B then data.getD o 0 else σ b o) b o = σ b o
      simp only
      rw [if_neg]
      rintro ⟨rfl, -⟩
      omega

theorem midStoreW_in (B : Nat) :
    ∀ (n start : Nat) (data : List Byte) (σ : Store) (i o : Nat),
      i < n → o < B →
      midStoreW B n start data σ (start + i) o = (data.drop (i * B)).getD o 0 := by
  intro n
  induction n with
  | zero => intro start data σ i o hi ho; omega
  | succ n ih =>
      intro start data σ i o hi ho
      show midStoreW B n (start + 1) (data.drop B)
        (applyCall B σ (BSCall.write_block start data)) (start + i) o = _
      match i with
      | 0 =>
          rw [midStoreW_out B n (start + 1) (data.drop B) _ (start + 0) o (by omega)]
          show (fun b o => if b = start ∧ o < B then data.getD o 0 else σ b o) (start + 0) o = _
          simp only
          rw [if_pos ⟨by omega, ho⟩]
          simp
      | j + 1 =>
          have hs : start + (j + 1) = (start + 1) + j := by omega
          rw [hs, ih (start + 1) (data.drop B) _ j o (by omega) ho, List.drop_drop,
            Nat.succ_mul, Nat.add_comm]

/-! ## List helpers -/

theorem map_getD_range : ∀ (n : Nat) (l : List Byte), n ≤ l.length →
    (List.range n).map (fun j => l.getD j 0) = l.take n := by
  intro n
  induction n with
  | zero => intro l h; simp
  | succ n ih =>
      intro l h
      match l with
      | [] => simp at h
      | a :: t =>
          rw [List.range_succ_eq_map, List.map_cons, List.map_map]
          have h2 : n ≤ t.length := by simpa using h
          have hc : ((List.range n).map ((fun j => (a :: t).getD j 0) ∘ (· + 1))) =
              (List.range n).map (fun j => t.getD j 0) := by
            apply List.map_congr_left
            intro x hx
            simp [Function.comp]
          rw [hc, ih t h2]
          simp

theorem midReadW_take (B : Nat) (σ : Store) :
    ∀ (n start : Nat) (l : List Byte),
      (∀ i, i < n → readFull B σ (start + i) = (l.drop (i * B)).take B) →
      midReadW B σ n start = l.take (n * B) := by
  intro n
  induction n with
  | zero => intro start l h; simp [midReadW]
  | succ n ih =>
      intro start l h
      show readFull B σ start ++ midReadW B σ n (start + 1) = _
      have h0 : readFull B σ start = l.take B := by
        have := h 0 (Nat.succ_pos n)
        simpa using this
      have hrec : midReadW B σ n (start + 1) = (l.drop B).take (n * B) := by
        apply ih
        intro i hi
        have hx := h (i + 1) (Nat.succ_lt_succ hi)
        rw [show start + (i + 1) = start + 1 + i by omega] at hx
        rw [hx, List.drop_drop, Nat.succ_mul, Nat.add_comm]
      rw [h0, hrec, show (n + 1) * B = B + n * B by rw [Nat.succ_mul, Nat.add_comm],
        List.take_add]

theorem applyCall_wbp (B : Nat) (σ : Store) (blk off len : Nat) (src : List Byte) (b o : Nat) :
    applyCall B σ (BSCall.write_block_part blk off len src) b o =
      if b = blk ∧ off ≤ o ∧ o < off + len then src.getD (o - off) 0 else σ b o := rfl

theorem applyCall_wb (B : Nat) (σ : Store) (blk : Nat) (src : List Byte) (b o : Nat) :
    applyCall B σ (BSCall.write_block blk src) b o =
      if b = blk ∧ o < B then src.getD o 0 else σ b o := rfl

/-- Reading back an error-free write dispatch from a faithful store
recovers the first size bytes of the request buffer (shared helper
behind the round-trip claim theorem). -/
theorem roundtrip_core (B : Nat) (σ : Store) (buf : List Byte)
    (size offset : Nat) (hlen : size ≤ buf.length) :
    readOut B (writtenStore B σ buf (calculate_boundary_info B size offset))
      (calculate_boundary_info B size offset) = buf.take size := by
  have hsum := boundary_sum B size offset
  have hend := bi_end_eq B size offset
  set info := calculate_boundary_info B size offset with hinfo
  have hA : ∀ j, j < info.beg_length →
      writtenStore B σ buf info info.beg_block (info.beg_offset + j) = buf.getD j 0 := by
    intro j hj
    have hbl : 0 < info.beg_length := by omega
    have hblt : info.beg_block < info.mid_block_start := bi_beg_lt_mid B size offset hbl
    have hne : info.beg_block ≠ info.end_block := by rw [hend]; omega
    have hσ1 : (if 0 < info.beg_length then
        applyCall B σ (BSCall.write_block_part info.beg_block info.beg_offset info.beg_length buf)
      else σ) info.beg_block (info.beg_offset + j) = buf.getD j 0 := by
      rw [if_pos hbl, applyCall_wbp, if_pos ⟨rfl, by omega, by omega⟩]
      have hd : info.beg_offset + j - info.beg_offset = j := by omega
      rw [hd]
    have hσ2 : midStoreW B info.mid_block_count info.mid_block_start (buf.drop info.beg_length)
        (if 0 < info.beg_length then
          applyCall B σ (BSCall.write_block_part info.beg_block info.beg_offset info.beg_length buf)
        else σ) info.beg_block (info.beg_offset + j) = buf.getD j 0 := by
      rw [midStoreW_out B info.mid_block_count info.mid_block_start _ _ _ _ (Or.inl hblt), hσ1]
    simp only [writtenStore]
    by_cases hel : 0 < info.end_length
    · rw [if_pos hel, applyCall_wbp, if_neg (fun hc => hne hc.1), hσ2]
    · rw [if_neg hel, hσ2]
  have hM : ∀ i o, i < info.mid_block_count → o < B →
      writtenStore B σ buf info (info.mid_block_start + i) o =
        ((buf.drop info.beg_length).drop (i * B)).getD o 0 := by
    intro i o hi ho
    have hne2 : info.mid_block_start + i ≠ info.end_block := by rw [hend]; omega
    have hσ2 := midStoreW_in B info.mid_block_count info.mid_block_start
      (buf.drop info.beg_length)
      (if 0 < info.beg_length then
        applyCall B σ (BSCall.write_block_part info.beg_block info.beg_offset info.beg_length buf)
      else σ) i o hi ho
    simp only [writtenStore]
    by_cases hel : 0 < info.end_length
    · rw [if_pos hel, applyCall_wbp, if_neg (fun hc => hne2 hc.1), hσ2]
    · rw [if_neg hel, hσ2]
  have hE : ∀ o, o < info.end_length →
      writtenStore B σ buf info info.end_block o =
        (buf.drop (info.beg_length + info.mid_block_count * B)).getD o 0 := by
    intro o ho
    have hel : 0 < info.end_length := by omega
    simp only [writtenStore]
    rw [if_pos hel, applyCall_wbp, if_pos ⟨rfl, by omega, by omega⟩, Nat.sub_zero]
  have eqA : (if 0 < info.beg_length then
      readPart (writtenStore B σ buf info) info.beg_block info.beg_offset info.beg_length
    else []) = buf.take info.beg_length := by
    by_cases hbl : 0 < info.beg_length
    · rw [if_pos hbl]
      unfold readPart
      have h1 : (List.range info.beg_length).map
          (fun j => writtenStore B σ buf info info.beg_block (info.beg_offset + j)) =
          (List.range info.beg_length).map (fun j => buf.getD j 0) :=
        List.map_congr_left (fun j hj => hA j (List.mem_range.mp hj))
      rw [h1, map_getD_range _ _ (by omega)]
    · rw [if_neg hbl]
      have h0 : info.beg_length = 0 := by omega
      rw [h0]
      simp
  have eqM : midReadW B (writtenStore B σ buf info) info.mid_block_count info.mid_block_start =
      (buf.drop info.beg_length).take (info.mid_block_count * B) := by
    apply midReadW_take
    intro i hi
    unfold readFull
    have h1 : (List.range B).map (writtenStore B σ buf info (info.mid_block_start + i)) =
        (List.range B).map
          (fun o => ((buf.drop info.beg_length).drop (i * B)).getD o 0) :=
      List.map_congr_left (fun o ho => hM i o hi (List.mem_range.mp ho))
    rw [h1]
    apply map_getD_range
    rw [List.length_drop, List.length_drop]
    have h2 : i * B + B ≤ info.mid_block_count * B := by
      rw [← Nat.succ_mul]
      exact Nat.mul_le_mul_right B (by omega)
    omega
  have eqE : (if 0 < info.end_length then
      readPart (writtenStore B σ buf info) info.end_block 0 info.end_length
    else []) = (buf.drop (info.beg_length + info.mid_block_count * B)).take info.end_length := by
    by_cases hel : 0 < info.end_length
    · rw [if_pos hel]
      unfold readPart
      have h1 : (List.range info.end_length).map
          (fun j => writtenStore B σ buf info info.end_block (0 + j)) =
          (List.range info.end_length).map
            (fun j => (buf.drop (info.beg_length + info.mid_block_count * B)).getD j 0) := by
        apply List.map_congr_left
        intro j hj
        rw [Nat.zero_add]
        exact hE j (List.mem_range.mp hj)
      rw [h1]
      apply map_getD_range
      rw [List.length_drop]
      omega
    · rw [if_neg hel]
      have h0 : info.end_length = 0 := by omega
      rw [h0]
      simp
  unfold readOut
  rw [eqA, eqM, eqE]
  have hsz : size = info.beg_length + (info.mid_block_count * B + info.end_length) := by omega
  rw [hsz, List.take_add]
  congr 1
  rw [List.take_add]
  congr 1
  rw [List.drop_drop]

/-! ## Claim theorems -/

/-- C1: for every positive power-of-two block size B, every offset and
every length, the boundary decomposition satisfies
beg_length + mid_block_count * B + end_length = length, including the
zero-length request (where all three are zero). -/
theorem boundary_info_length_sum (B k size offset : Nat) (hB : B = 2 ^ k) :
    (calculate_boundary_info B size offset).beg_length +
      (calculate_boundary_info B size offset).mid_block_count * B +
      (calculate_boundary_info B size offset).end_length = size :=
  boundary_sum B size offset

theorem boundary_info_length_sum_witness :
    (512 : Nat) = 2 ^ 9 ∧
      (calculate_boundary_info 512 1500 600).beg_length +
        (calculate_boundary_info 512 1500 600).mid_block_count * 512 +
        (calculate_boundary_info 512 1500 600).end_length = 1500 :=
  ⟨by decide, boundary_info_length_sum 512 9 1500 600 (by decide)⟩

/-- C3: the read dispatcher equals the generic sequential processor run
on its ordered segment list — leading partial-block read, then one
full-block read per block of the whole-block run in ascending
consecutive index order (into successive block-sized slices of the
output), then the trailing partial-block read; the processor aborts on
the first nonzero result, surfacing the failing block index and the
underlying error code, and never retries or reorders a segment. -/
theorem pread_sequential_dispatch (B : Nat) (err : BSCall → Int) (σ : Store)
    (size offset flags : Nat) :
    s3b_nbd_plugin_pread B err σ size offset flags =
      runReadSeq B err σ (readSegs (calculate_boundary_info B size offset)) :=
  pread_eq_runReadSeq B err σ size offset flags

/-- C4: if segment k of a write request is the first whose backing-store
call fails, the write dispatcher issues exactly the calls of segments
0..k — the segments after the failing one are never attempted — the
store reflects exactly the already-applied preceding segments (nothing
is rolled back), and the failing block index together with the
underlying error code is returned. -/
theorem pwrite_first_error_aborts (B : Nat) (err : BSCall → Int) (σ : Store)
    (buf : List Byte) (size offset flags k : Nat)
    (hk : k < (pwriteSegs B size offset buf).length)
    (hfail : err ((pwriteSegs B size offset buf).getD k dummySeg).2 ≠ 0)
    (hpre : ∀ j, j < k → err ((pwriteSegs B size offset buf).getD j dummySeg).2 = 0) :
    s3b_nbd_plugin_pwrite B err σ buf size offset flags =
      (((pwriteSegs B size offset buf).take (k + 1)).map Prod.snd,
        List.foldl (fun τ s => applyCall B τ s.2) σ ((pwriteSegs B size offset buf).take k),
        some (((pwriteSegs B size offset buf).getD k dummySeg).1,
          err ((pwriteSegs B size offset buf).getD k dummySeg).2)) := by
  rw [pwrite_eq_runWriteSeq]
  exact runWriteSeq_firstFail B err k (pwriteSegs B size offset buf) σ hk hfail hpre

theorem pwrite_first_error_aborts_witness :
    1 < (pwriteSegs 4 14 0 (List.replicate 14 7)).length ∧
      errBlockOneFail ((pwriteSegs 4 14 0 (List.replicate 14 7)).getD 1 dummySeg).2 ≠ 0 ∧
      (∀ j, j < 1 →
        errBlockOneFail ((pwriteSegs 4 14 0 (List.replicate 14 7)).getD j dummySeg).2 = 0) ∧
      s3b_nbd_plugin_pwrite 4 errBlockOneFail σ0 (List.replicate 14 7) 14 0 0 =
        (((pwriteSegs 4 14 0 (List.replicate 14 7)).take 2).map Prod.snd,
          List.foldl (fun τ s => applyCall 4 τ s.2) σ0
            ((pwriteSegs 4 14 0 (List.replicate 14 7)).take 1),
          some (((pwriteSegs 4 14 0 (List.replicate 14 7)).getD 1 dummySeg).1,
            errBlockOneFail ((pwriteSegs 4 14 0 (List.replicate 14 7)).getD 1 dummySeg).2)) :=
  ⟨by decide, by decide, by decide,
    pwrite_first_error_aborts 4 errBlockOneFail σ0 (List.replicate 14 7) 14 0 0 1
      (by decide) (by decide) (by decide)⟩

/-- C2: for every trim/zero request whose decomposition has a
whole-block run, dispatched with every backing-store call succeeding,
the trace is exactly an optional leading partial-block write of
beg_length zero bytes at beg_offset sourced from the all-zero block,
then one batched bulk_zero call carrying the ordered block-index
sequence mid_block_start + i for i < mid_block_count, then an optional
trailing partial-block write of end_length zero bytes at offset 0 from
the same zero block; the trace holds exactly one bulk_zero call, no
write_block call at all, and no write_block_part call aimed at a block
of the whole-block run. -/
theorem trim_bulk_zero_batched (B : Nat) (err : BSCall → Int) (σ : Store)
    (size offset flags : Nat)
    (hmid : 0 < (calculate_boundary_info B size offset).mid_block_count)
    (hsucc : ∀ c, err c = 0) :
    (s3b_nbd_plugin_trim B err σ size offset flags).trace =
        (if 0 < (calculate_boundary_info B size offset).beg_length then
          [BSCall.write_block_part (calculate_boundary_info B size offset).beg_block
            (calculate_boundary_info B size offset).beg_offset
            (calculate_boundary_info B size offset).beg_length (zero_block B)] else []) ++
        [BSCall.bulk_zero
          ((List.range (calculate_boundary_info B size offset).mid_block_count).map
            (fun i => (calculate_boundary_info B size offset).mid_block_start + i))] ++
        (if 0 < (calculate_boundary_info B size offset).end_length then
          [BSCall.write_block_part (calculate_boundary_info B size offset).end_block 0
            (calculate_boundary_info B size offset).end_length (zero_block B)] else []) ∧
      ((s3b_nbd_plugin_trim B err σ size offset flags).trace.countP isBulkZero = 1) ∧
      (∀ blk src, BSCall.write_block blk src ∉
        (s3b_nbd_plugin_trim B err σ size offset flags).trace) ∧
      (∀ blk off len src,
        BSCall.write_block_part blk off len src ∈
            (s3b_nbd_plugin_trim B err σ size offset flags).trace →
          blk ∉ (List.range (calculate_boundary_info B size offset).mid_block_count).map
            (fun i => (calculate_boundary_info B size offset).mid_block_start + i)) ∧
      ((zero_block B).take (calculate_boundary_info B size offset).beg_length =
        List.replicate (calculate_boundary_info B size offset).beg_length 0) := by
  have hend := bi_end_eq B size offset
  have hbegB := bi_beg_le_B B size offset
  have htr : (s3b_nbd_plugin_trim B err σ size offset flags).trace =
      (if 0 < (calculate_boundary_info B size offset).beg_length then
        [BSCall.write_block_part (calculate_boundary_info B size offset).beg_block
          (calculate_boundary_info B size offset).beg_offset
          (calculate_boundary_info B size offset).beg_length (zero_block B)] else []) ++
      [BSCall.bulk_zero
        ((List.range (calculate_boundary_info B size offset).mid_block_count).map
          (fun i => (calculate_boundary_info B size offset).mid_block_start + i))] ++
      (if 0 < (calculate_boundary_info B size offset).end_length then
        [BSCall.write_block_part (calculate_boundary_info B size offset).end_block 0
          (calculate_boundary_info B size offset).end_length (zero_block B)] else []) := by
    by_cases hbl : 0 < (calculate_boundary_info B size offset).beg_length <;>
      by_cases hel : 0 < (calculate_boundary_info B size offset).end_length <;>
      simp [s3b_nbd_plugin_trim, trim_end_phase, hsucc, hmid, hbl, hel]
  refine ⟨htr, ?_, ?_, ?_, ?_⟩
  · rw [htr]
    by_cases hbl : 0 < (calculate_boundary_info B size offset).beg_length <;>
      by_cases hel : 0 < (calculate_boundary_info B size offset).end_length <;>
      simp [hbl, hel, isBulkZero, List.countP_append, List.countP_cons]
  · intro blk src hmem
    rw [htr] at hmem
    by_cases hbl : 0 < (calculate_boundary_info B size offset).beg_length <;>
      by_cases hel : 0 < (calculate_boundary_info B size offset).end_length <;>
      simp [hbl, hel] at hmem
  · intro blk off len src hmem hseq
    rw [htr] at hmem
    simp only [List.mem_map, List.mem_range] at hseq
    obtain ⟨i, hi, hieq⟩ := hseq
    by_cases hbl : 0 < (calculate_boundary_info B size offset).beg_length <;>
      by_cases hel : 0 < (calculate_boundary_info B size offset).end_length <;>
      simp [hbl, hel] at hmem
    · rcases hmem with ⟨hb, -, -, -⟩ | ⟨hb, -, -, -⟩
      · have := bi_beg_lt_mid B size offset hbl
        omega
      · omega
    · rcases hmem with ⟨hb, -, -, -⟩
      have := bi_beg_lt_mid B size offset hbl
      omega
    · rcases hmem with ⟨hb, -, -, -⟩
      omega
  · rw [zero_block, List.take_replicate, Nat.min_eq_left hbegB]

theorem trim_bulk_zero_batched_witness :
    0 < (calculate_boundary_info 4096 12288 0).mid_block_count ∧
      (∀ c, err0 c = 0) ∧
      ((s3b_nbd_plugin_trim 4096 err0 σ0 12288 0 0).trace =
          (if 0 < (calculate_boundary_info 4096 12288 0).beg_length then
            [BSCall.write_block_part (calculate_boundary_info 4096 12288 0).beg_block
              (calculate_boundary_info 4096 12288 0).beg_offset
              (calculate_boundary_info 4096 12288 0).beg_length (zero_block 4096)] else []) ++
          [BSCall.bulk_zero
            ((List.range (calculate_boundary_info 4096 12288 0).mid_block_count).map
              (fun i => (calculate_boundary_info 4096 12288 0).mid_block_start + i))] ++
          (if 0 < (calculate_boundary_info 4096 12288 0).end_length then
            [BSCall.write_block_part (calculate_boundary_info 4096 12288 0).end_block 0
              (calculate_boundary_info 4096 12288 0).end_length (zero_block 4096)] else []) ∧
        ((s3b_nbd_plugin_trim 4096 err0 σ0 12288 0 0).trace.countP isBulkZero = 1) ∧
        (∀ blk src, BSCall.write_block blk src ∉
          (s3b_nbd_plugin_trim 4096 err0 σ0 12288 0 0).trace) ∧
        (∀ blk off len src,
          BSCall.write_block_part blk off len src ∈
              (s3b_nbd_plugin_trim 4096 err0 σ0 12288 0 0).trace →
            blk ∉ (List.range (calculate_boundary_info 4096 12288 0).mid_block_count).map
              (fun i => (calculate_boundary_info 4096 12288 0).mid_block_start + i)) ∧
        ((zero_block 4096).take (calculate_boundary_info 4096 12288 0).beg_length =
          List.replicate (calculate_boundary_info 4096 12288 0).beg_length 0)) :=
  ⟨by decide, fun _ => rfl,
    trim_bulk_zero_batched 4096 err0 σ0 12288 0 0 (by decide) (fun _ => rfl)⟩

/-- C5: for every block size, error oracle, store state, request length,
offset and flags, the zero operation of the plugin table is identical to
the trim operation — the very same handler, hence the same sequence of
backing-store calls and the same result. -/
theorem zero_eq_trim :
    plugin.zero = plugin.trim ∧
      ∀ (B : Nat) (err : BSCall → Int) (σ : Store) (size offset flags : Nat),
        plugin.zero B err σ size offset flags = plugin.trim B err σ size offset flags :=
  ⟨rfl, fun _ _ _ _ _ _ => rfl⟩

/-- C6: round trip — writing a pattern through the write dispatcher over
the byte range (offset, size) against an error-free faithful backing
store and then reading the same range back through the read dispatcher
returns the pattern. -/
theorem write_read_roundtrip (B k offset size flags flags2 : Nat) (σ : Store)
    (buf : List Byte) (hB : B = 2 ^ k) (hlen : size ≤ buf.length) :
    (s3b_nbd_plugin_pread B err0
        ((s3b_nbd_plugin_pwrite B err0 σ buf size offset flags).2.1)
        size offset flags2).2.1 = buf.take size := by
  rw [pread_err0_out, pwrite_err0_store]
  exact roundtrip_core B σ buf size offset hlen

theorem write_read_roundtrip_witness :
    (2 : Nat) = 2 ^ 1 ∧ 4 ≤ ([5, 6, 7, 8, 9] : List Byte).length ∧
      (s3b_nbd_plugin_pread 2 err0
          ((s3b_nbd_plugin_pwrite 2 err0 σ0 [5, 6, 7, 8, 9] 4 1 0).2.1) 4 1 0).2.1 =
        ([5, 6, 7, 8, 9] : List Byte).take 4 :=
  ⟨by decide, by decide,
    write_read_roundtrip 2 1 1 4 0 0 σ0 [5, 6, 7, 8, 9] (by decide) (by decide)⟩

/-- C7 (code bug): trimming three whole blocks (block size 4, offset 0,
length 12) while the bulk_zero call fails with code 5 allocates the
transient block-index array exactly once but never frees it — on the
bulk_zero error path the dispatch returns without releasing the array,
contradicting the claim that it is released on every exit path. -/
theorem trim_bulk_zero_error_leak :
    (s3b_nbd_plugin_trim 4 errBulkFail σ0 12 0 0).allocated = 1 ∧
      (s3b_nbd_plugin_trim 4 errBulkFail σ0 12 0 0).freed = 0 ∧
      (s3b_nbd_plugin_trim 4 errBulkFail σ0 12 0 0).res = some 5 := by
  decide

/-- C8 counterexample: the key consisting of exactly the distinguishing
prefix carries the prefix (its first four characters are s3b_), is not a
recognized flag (no flag is recognized here) and is not the bucket key,
yet the config handler returns success (0) rather than rejecting it:
the C code strips and remembers the prefix only for keys strictly longer
than it. -/
theorem config_bare_pfx_key_not_rejected :
    "s3b_".toList.take 4 = s3bParamPfx ∧ (fun _ => 0 : CStr → Nat) "s3b_".toList = 0 ∧
      "s3b_".toList ≠ BUCKET_PARAMETER_NAME ∧
      (s3b_nbd_plugin_config (fun _ => 0) ⟨[], none⟩ "s3b_".toList "x".toList).2 = 0 := by
  decide

/-- C8 (amended): for every key that is not a recognized flag (after
prefix stripping) and is not the special bucket key, the config handler
rejects it exactly when the key is strictly longer than the
four-character s3b_ prefix and starts with it; otherwise — including the
boundary key consisting of exactly the prefix — it returns success and
records nothing: the state is unchanged except for the one-time
initialization of the argument array with the package name. -/
theorem config_unknown_key_policy (is_valid_s3b_flag : CStr → Nat) (st : ConfigState)
    (key value : CStr)
    (hval : is_valid_s3b_flag
      (if 4 < key.length ∧ key.take 4 = s3bParamPfx then key.drop 4 else key) = 0)
    (hnb : (if 4 < key.length ∧ key.take 4 = s3bParamPfx then key.drop 4 else key) ≠
      BUCKET_PARAMETER_NAME) :
    ((4 < key.length ∧ key.take 4 = s3bParamPfx) →
        (s3b_nbd_plugin_config is_valid_s3b_flag st key value).2 = -1) ∧
      (¬(4 < key.length ∧ key.take 4 = s3bParamPfx) →
        (s3b_nbd_plugin_config is_valid_s3b_flag st key value).2 = 0 ∧
          (s3b_nbd_plugin_config is_valid_s3b_flag st key value).1 =
            ⟨if st.params = [] then [PACKAGE_NAME] else st.params, st.bucket_param⟩) := by
  by_cases hp : 4 < key.length ∧ key.take 4 = s3bParamPfx
  · rw [if_pos hp] at hval hnb
    have hb : (decide (4 < key.length) && decide (key.take 4 = s3bParamPfx)) = true := by
      simp [hp.1, hp.2]
    constructor
    · intro _
      simp [s3b_nbd_plugin_config, hb, hval, hnb]
    · intro hc
      exact absurd hp hc
  · rw [if_neg hp] at hval hnb
    have hb : (decide (4 < key.length) && decide (key.take 4 = s3bParamPfx)) = false := by
      rcases Decidable.not_and_iff_or_not.mp hp with h | h <;> simp [h]
    constructor
    · intro hc
      exact absurd hc hp
    · intro _
      simp [s3b_nbd_plugin_config, hb, hval, hnb]

theorem config_unknown_key_policy_witness :
    (fun _ => 0 : CStr → Nat)
        (if 4 < "s3b_zzz".toList.length ∧ "s3b_zzz".toList.take 4 = s3bParamPfx then
          "s3b_zzz".toList.drop 4 else "s3b_zzz".toList) = 0 ∧
      (if 4 < "s3b_zzz".toList.length ∧ "s3b_zzz".toList.take 4 = s3bParamPfx then
          "s3b_zzz".toList.drop 4 else "s3b_zzz".toList) ≠ BUCKET_PARAMETER_NAME ∧
      (((4 < "s3b_zzz".toList.length ∧ "s3b_zzz".toList.take 4 = s3bParamPfx) →
          (s3b_nbd_plugin_config (fun _ => 0) ⟨[], none⟩ "s3b_zzz".toList "v".toList).2 = -1) ∧
        (¬(4 < "s3b_zzz".toList.length ∧ "s3b_zzz".toList.take 4 = s3bParamPfx) →
          (s3b_nbd_plugin_config (fun _ => 0) ⟨[], none⟩ "s3b_zzz".toList "v".toList).2 = 0 ∧
            (s3b_nbd_plugin_config (fun _ => 0) ⟨[], none⟩ "s3b_zzz".toList "v".toList).1 =
              ⟨if ([] : List CStr) = [] then [PACKAGE_NAME] else [], none⟩)) :=
  ⟨by decide, by decide,
    config_unknown_key_policy (fun _ => 0) ⟨[], none⟩ "s3b_zzz".toList "v".toList
      (by decide) (by decide)⟩

/-- C9: the cache pre-load capability is advertised (NBDKIT_CACHE_EMULATE)
if and only if the configured block-cache capacity is positive, and the
query reports NBDKIT_CACHE_NONE if and only if the capacity is zero. -/
theorem can_cache_iff_cache_size_pos (cfg : s3b_config_core) :
    (s3b_nbd_plugin_can_cache cfg = NBDKIT_CACHE_EMULATE ↔
        0 < cfg.block_cache.cache_size) ∧
      (s3b_nbd_plugin_can_cache cfg = NBDKIT_CACHE_NONE ↔
        cfg.block_cache.cache_size = 0) := by
  by_cases h : 0 < cfg.block_cache.cache_size <;>
    simp [s3b_nbd_plugin_can_cache, NBDKIT_CACHE_EMULATE, NBDKIT_CACHE_NONE, h] <;>
    omega

/-- C10: the flags argument of the read, write and trim/zero dispatchers
has no effect: two calls that agree on everything except flags issue the
same backing-store calls and return the same result. -/
theorem flags_have_no_effect (B : Nat) (err : BSCall → Int) (σ : Store)
    (buf : List Byte) (size offset flags1 flags2 : Nat) :
    s3b_nbd_plugin_pread B err σ size offset flags1 =
        s3b_nbd_plugin_pread B err σ size offset flags2 ∧
      s3b_nbd_plugin_pwrite B err σ buf size offset flags1 =
        s3b_nbd_plugin_pwrite B err σ buf size offset flags2 ∧
      s3b_nbd_plugin_trim B err σ size offset flags1 =
        s3b_nbd_plugin_trim B err σ size offset flags2 :=
  ⟨rfl, rfl, rfl⟩

end S3B
